import Mathlib

/-!
Shallow embedding of `src/audio_analyzer/AudioAnalyzer.py`.

The Python class `AudioAnalyzer` delegates audio decoding, metadata
reading and neural-network inference to the external essentia library.
Those external calls are modelled by an oracle structure `Env`; their
invocations are recorded as `Event`s so that claims about when the
delegated calls happen (e.g. the audio is loaded once, at construction)
are statable.  Python floats are modelled by `ℚ`, numpy 2-d arrays by
`List (List ℚ)`, raised exceptions by `Except PyError`, and a method is
a function returning `(result, new analyzer state, trace of external
calls)`: the Python methods never assign to `self`, so each returns the
analyzer unchanged.
-/

/-- Exceptions the Python code can raise natively: `KeyError` from a dict
lookup, `OSError` from file I/O, `UnboundLocalError`/`NameError` when a
`match` statement falls through leaving a local unbound, and numpy
`IndexError` from out-of-bounds column indexing. -/
inductive PyError where
  | keyError (key : String)
  | ioError (msg : String)
  | nameError (name : String)
  | indexError (msg : String)
deriving DecidableEq, Repr

instance decEqExcept {ε α : Type} [DecidableEq ε] [DecidableEq α] :
    DecidableEq (Except ε α) := fun x y =>
  match x, y with
  | Except.error a, Except.error b =>
    if h : a = b then isTrue (by rw [h]) else
      isFalse (by intro hc; cases hc; exact h rfl)
  | Except.error _, Except.ok _ => isFalse (fun hc => Except.noConfusion hc)
  | Except.ok _, Except.error _ => isFalse (fun hc => Except.noConfusion hc)
  | Except.ok a, Except.ok b =>
    if h : a = b then isTrue (by rw [h]) else
      isFalse (by intro hc; cases hc; exact h rfl)

/-- One entry of `./data/audio_features_config.json`: the JSON object stored
under a feature name, with its model, algorithm and graph-file fields. -/
structure ConfigEntry where
  model : String
  algorithm : String
  embedding_graph_filename : String
  prediction_graph_filename : String
deriving DecidableEq, Repr

/-- An invocation of the external essentia / file-system surface. -/
inductive Event where
  | monoLoad (filename : String) (sampleRate : Nat) (resampleQuality : Nat)
  | metadataRead (filename : String)
  | openConfig (path : String)
  | runEmbedding (kind : String) (graphFilename : String) (output : String)
  | runPrediction (graphFilename : String) (output : String)
deriving DecidableEq, Repr

/-- Whether an event is an audio load via `MonoLoader`. -/
def Event.isMonoLoad : Event → Bool
  | Event.monoLoad _ _ _ => true
  | _ => false

/-- Oracle for everything the module delegates: what `MonoLoader` returns for
a file, the metadata pool (descriptor names in iteration order, each with its
value list), the parsed content of the JSON configuration file (or an I/O
failure), and the outputs of the embedding and prediction networks. -/
structure Env where
  monoLoad : String → Nat → Nat → List ℚ
  metadataPool : String → List (String × List String)
  configFile : Except String (List (String × ConfigEntry))
  runEmbedding : String → String → String → List ℚ → List (List ℚ)
  runPrediction : String → String → List (List ℚ) → List (List ℚ)

/-- Path of the configuration file opened by `__get_audio_feature_config`. -/
def configPath : String := "./data/audio_features_config.json"

/-- Insertion of one key/value pair into a dict, overwriting the key. -/
def dictInsert (m : String → Option ConfigEntry) (kv : String × ConfigEntry) :
    String → Option ConfigEntry :=
  fun k => if k = kv.1 then some kv.2 else m k

/-- The dict `json.load` builds from a JSON object: pairs are inserted in
textual order, a later pair with the same key overwriting an earlier one. -/
def jsonObjectToDict (parameters : List (String × ConfigEntry)) : String → Option ConfigEntry :=
  parameters.foldl dictInsert (fun _ => none)

/-- Embedding of `AudioAnalyzer.__get_audio_feature_config`: open and parse
the configuration file, then index the resulting dict with the feature name.
A missing key raises `KeyError` with that name; a failing open raises the
native I/O error. -/
def get_audio_feature_config (env : Env) (audio_feature : String) : Except PyError ConfigEntry :=
  match env.configFile with
  | Except.error msg => Except.error (PyError.ioError msg)
  | Except.ok parameters =>
    match jsonObjectToDict parameters audio_feature with
    | some cfg => Except.ok cfg
    | none => Except.error (PyError.keyError audio_feature)

/-- State of an `AudioAnalyzer` instance: its three private attributes. -/
structure AudioAnalyzer where
  file_path : String
  model_path : String
  audio : List ℚ
deriving DecidableEq, Repr

/-- Embedding of `AudioAnalyzer.__get_essentia_audio`: call `MonoLoader`
on the file path with `sampleRate=16000, resampleQuality=4`. -/
def get_essentia_audio (env : Env) (file_path : String) : List ℚ × List Event :=
  (env.monoLoad file_path 16000 4, [Event.monoLoad file_path 16000 4])

/-- Embedding of `AudioAnalyzer.__init__`: store the file path, set the
model path to `./models/`, and load the audio eagerly. -/
def AudioAnalyzer.init (env : Env) (file_path : String) : AudioAnalyzer × List Event :=
  (⟨file_path, "./models/", (get_essentia_audio env file_path).1⟩,
    (get_essentia_audio env file_path).2)

/-- The key under which `get_metadata` stores a descriptor:
`descriptor.split(".")[-1]`, the last dot-separated component. -/
def lastComponent (descriptor : String) : String :=
  (descriptor.splitOn ".").getLastD ""

/-- The loop body of `get_metadata`: walk the descriptors in pool order,
keying each first value by the descriptor's last component in a dict
(modelled as `String → Option String`); an empty value list makes
`metadata_pool[descriptor][0]` raise `IndexError`. -/
def poolToMetadata (pool : List (String × List String)) (acc : String → Option String) :
    Except PyError (String → Option String) :=
  match pool with
  | [] => Except.ok acc
  | (descriptor, values) :: rest =>
    match values with
    | [] => Except.error (PyError.indexError "list index out of range")
    | v :: _ =>
      poolToMetadata rest (fun k => if k = lastComponent descriptor then some v else acc k)

/-- Embedding of `AudioAnalyzer.get_metadata`: read the metadata pool of the
stored file and fold it into a dict. -/
def AudioAnalyzer.get_metadata (a : AudioAnalyzer) (env : Env) :
    Except PyError (String → Option String) × AudioAnalyzer × List Event :=
  (poolToMetadata (env.metadataPool a.file_path) (fun _ => none), a,
    [Event.metadataRead a.file_path])

/-- The `match audio_config["model"]` statement of `calculate_predictions`:
which predictor class, graph file and output node get bound to
`embedding_model`; `none` when no case matches, so that the later use of
`embedding_model` raises. -/
def embeddingSelect (model_path : String) (audio_config : ConfigEntry) :
    Option (String × String × String) :=
  if audio_config.model = "musicnn" then
    some ("musicnn", model_path ++ audio_config.embedding_graph_filename, "model/dense/BiasAdd")
  else if audio_config.model = "effnet" then
    some ("effnet", model_path ++ audio_config.embedding_graph_filename, "PartitionedCall:1")
  else none

/-- The `match audio_config["algorithm"]` statement of
`calculate_predictions`: the graph file and output node bound to
`prediction_model`; `none` when no case matches. -/
def predictionSelect (model_path : String) (audio_config : ConfigEntry) :
    Option (String × String) :=
  if audio_config.algorithm = "regression" then
    some (model_path ++ audio_config.prediction_graph_filename, "model/Identity")
  else if audio_config.algorithm = "classifier" then
    some (model_path ++ audio_config.prediction_graph_filename, "model/Softmax")
  else none

/-- Embedding of `AudioAnalyzer.calculate_predictions`: look up the feature's
configuration, run the selected embedding model on the stored audio, then run
the selected prediction model on the embeddings.  An unmatched model or
algorithm value leaves the corresponding local unbound, raising at its use
site (after the embedding model already ran, for the algorithm case). -/
def AudioAnalyzer.calculate_predictions (a : AudioAnalyzer) (env : Env) (audio_feature : String) :
    Except PyError (List (List ℚ)) × AudioAnalyzer × List Event :=
  match get_audio_feature_config env audio_feature with
  | Except.error e => (Except.error e, a, [Event.openConfig configPath])
  | Except.ok audio_config =>
    match embeddingSelect a.model_path audio_config with
    | none => (Except.error (PyError.nameError "embedding_model"), a, [Event.openConfig configPath])
    | some (kind, egraph, eout) =>
      let embeddings := env.runEmbedding kind egraph eout a.audio
      match predictionSelect a.model_path audio_config with
      | none =>
        (Except.error (PyError.nameError "prediction_model"), a,
          [Event.openConfig configPath, Event.runEmbedding kind egraph eout])
      | some (pgraph, pout) =>
        (Except.ok (env.runPrediction pgraph pout embeddings), a,
          [Event.openConfig configPath, Event.runEmbedding kind egraph eout,
            Event.runPrediction pgraph pout])

/-- Number of columns of a 2-d array, read off its first row
(the shape's second component, for a rectangular nonempty array). -/
def npWidth (P : List (List ℚ)) : Nat := (P.headD []).length

/-- Numpy integer indexing into an axis of length `length`: indices in
`[0, length)` are taken as is, indices in `[-length, 0)` count from the end,
anything else raises `IndexError`. -/
def npIndex (length : Nat) (i : Int) : Except PyError Nat :=
  if 0 ≤ i ∧ i < (length : Int) then Except.ok i.toNat
  else if -(length : Int) ≤ i ∧ i < 0 then Except.ok (i + length).toNat
  else Except.error (PyError.indexError "index out of bounds")

/-- Column `j` of a 2-d array: `P[:, j]` once `j` is a checked index. -/
def npColumn (P : List (List ℚ)) (j : Nat) : List ℚ :=
  P.map (fun row => row.getD j 0)

/-- Pointwise sum of two rows, as numpy broadcasting adds equal-length
vectors. -/
def addRow (r s : List ℚ) : List ℚ := List.zipWith (fun x y => x + y) r s

/-- `np.sum(P, axis=0)`: fold the rows with pointwise addition, starting
from a zero row of the array's width. -/
def npSumAxis0 (P : List (List ℚ)) : List ℚ :=
  P.foldr addRow (List.replicate (npWidth P) 0)

/-- `np.mean(P, axis=0)`: the axis-0 sum divided by the number of rows. -/
def npMeanAxis0 (P : List (List ℚ)) : List ℚ :=
  (npSumAxis0 P).map (fun s => s / (P.length : ℚ))

/-- Return value of `calculate_prediction_metric`: a Python tuple
(regression), a float (classifier), or `None` when the final `match`
falls through. -/
inductive Metric where
  | tup (values : List ℚ)
  | ratio (value : ℚ)
  | pyNone
deriving DecidableEq, Repr

/-- Embedding of `AudioAnalyzer.calculate_prediction_metric`: look up the
configuration, compute the per-segment predictions, then aggregate: the
per-column mean as a tuple for `"regression"`, the fraction of rows whose
`category` column exceeds `0.5` for `"classifier"`, and `None` otherwise. -/
def AudioAnalyzer.calculate_prediction_metric (a : AudioAnalyzer) (env : Env)
    (audio_feature : String) (category : Int) :
    Except PyError Metric × AudioAnalyzer × List Event :=
  match get_audio_feature_config env audio_feature with
  | Except.error e => (Except.error e, a, [Event.openConfig configPath])
  | Except.ok audio_config =>
    match a.calculate_predictions env audio_feature with
    | (Except.error e, _, tr) => (Except.error e, a, Event.openConfig configPath :: tr)
    | (Except.ok predictions, _, tr) =>
      if audio_config.algorithm = "regression" then
        (Except.ok (Metric.tup (npMeanAxis0 predictions)), a, Event.openConfig configPath :: tr)
      else if audio_config.algorithm = "classifier" then
        match npIndex (npWidth predictions) category with
        | Except.error e => (Except.error e, a, Event.openConfig configPath :: tr)
        | Except.ok j =>
          let count : Nat := (npColumn predictions j).countP (fun q => decide ((1 : ℚ)/2 < q))
          (Except.ok (Metric.ratio ((count : ℚ) / (predictions.length : ℚ))), a,
            Event.openConfig configPath :: tr)
      else
        (Except.ok Metric.pyNone, a, Event.openConfig configPath :: tr)

/-- A 2-d array is rectangular of width `w` when every row has length `w`,
as every numpy array produced by `TensorflowPredict2D` is. -/
def Rectangular (P : List (List ℚ)) (w : Nat) : Prop := ∀ row ∈ P, row.length = w

instance (P : List (List ℚ)) (w : Nat) : Decidable (Rectangular P w) :=
  List.decidableBAll _ P

/-- A concrete environment used to instantiate the theorems below. -/
def sampleEnv : Env :=
  ⟨fun _ _ _ => [1, 2],
    fun _ => [("metadata.tags.album", ["The Wildest!"]), ("other.tags.album", ["Revised"])],
    Except.ok
      [("danceability", ⟨"effnet", "classifier", "emb.pb", "pred.pb"⟩),
        ("approachability", ⟨"effnet", "regression", "emb.pb", "pred2.pb"⟩),
        ("mood_happy", ⟨"musicnn", "regression", "emb3.pb", "pred3.pb"⟩)],
    fun _ _ _ _ => [[1, 0], [0, 1]],
    fun _ _ _ => [[3/4, 1/4], [1/4, 3/4]]⟩

/-- The analyzer built on `sampleEnv`. -/
def sampleAnalyzer : AudioAnalyzer := (AudioAnalyzer.init sampleEnv "song.mp3").1

/-- An environment whose configuration names a model the dispatch does not
recognise. -/
def badModelEnv : Env :=
  ⟨fun _ _ _ => [1, 2],
    fun _ => [],
    Except.ok [("flux", ⟨"vggish", "regression", "emb.pb", "pred.pb"⟩)],
    fun _ _ _ _ => [[1, 0]],
    fun _ _ _ => [[1, 0]]⟩

theorem foldl_dictInsert_not_mem (ps : List (String × ConfigEntry))
    (acc : String → Option ConfigEntry) (k : String) (h : k ∉ ps.map Prod.fst) :
    ps.foldl dictInsert acc k = acc k := by
  induction ps generalizing acc with
  | nil => rfl
  | cons p rest ih =>
    simp only [List.map_cons, List.mem_cons, not_or] at h
    rw [List.foldl_cons, ih _ h.2]
    simp [dictInsert, h.1]

theorem foldl_dictInsert_mem_nodup (ps : List (String × ConfigEntry))
    (acc : String → Option ConfigEntry) (k : String) (v : ConfigEntry)
    (hnodup : (ps.map Prod.fst).Nodup) (hmem : (k, v) ∈ ps) :
    ps.foldl dictInsert acc k = some v := by
  induction ps generalizing acc with
  | nil => simp at hmem
  | cons p rest ih =>
    obtain ⟨pk, pv⟩ := p
    simp only [List.map_cons, List.nodup_cons] at hnodup
    rcases List.mem_cons.mp hmem with heq | hrest
    · cases heq
      rw [List.foldl_cons, foldl_dictInsert_not_mem rest _ k hnodup.1]
      simp [dictInsert]
    · rw [List.foldl_cons]
      exact ih _ hnodup.2 hrest

theorem get_metadata_state (a : AudioAnalyzer) (env : Env) :
    (a.get_metadata env).2.1 = a := rfl

theorem calculate_predictions_state (a : AudioAnalyzer) (env : Env) (feature : String) :
    (a.calculate_predictions env feature).2.1 = a := by
  simp only [AudioAnalyzer.calculate_predictions]
  repeat' split
  all_goals rfl

theorem calculate_prediction_metric_state (a : AudioAnalyzer) (env : Env)
    (feature : String) (category : Int) :
    (a.calculate_prediction_metric env feature category).2.1 = a := by
  simp only [AudioAnalyzer.calculate_prediction_metric]
  repeat' split
  all_goals rfl

/-- C4: for every feature name that is a key of the JSON configuration
mapping, the configuration lookup returns exactly the entry stored under
that key (its model, algorithm and graph-file fields). -/
theorem config_lookup_returns_stored_entry (env : Env) (ps : List (String × ConfigEntry))
    (feature : String) (cfg : ConfigEntry)
    (hfile : env.configFile = Except.ok ps)
    (hnodup : (ps.map Prod.fst).Nodup)
    (hmem : (feature, cfg) ∈ ps) :
    get_audio_feature_config env feature = Except.ok cfg := by
  simp only [get_audio_feature_config, hfile,
    show jsonObjectToDict ps feature = some cfg from
      foldl_dictInsert_mem_nodup ps _ feature cfg hnodup hmem]

theorem config_lookup_returns_stored_entry_witness :
    get_audio_feature_config sampleEnv "danceability" =
      Except.ok ⟨"effnet", "classifier", "emb.pb", "pred.pb"⟩ :=
  config_lookup_returns_stored_entry sampleEnv _ "danceability" _ rfl
    (by decide) (by decide)

/-- C5 (amended): the configuration lookup fails exactly when the feature
name is absent from the configuration dict or the file read fails, and it
fails with the native `KeyError` / I/O error, unwrapped; `calculate_predictions`
and `calculate_prediction_metric` propagate such a failure unchanged (though
they can additionally fail natively on an unrecognised model or algorithm
value or an out-of-range category). -/
theorem config_lookup_failure_iff (env : Env) (a : AudioAnalyzer)
    (feature : String) (category : Int) :
    ((∃ e, get_audio_feature_config env feature = Except.error e) ↔
      (∃ msg, env.configFile = Except.error msg) ∨
        ∃ ps, env.configFile = Except.ok ps ∧ jsonObjectToDict ps feature = none) ∧
    (∀ msg, env.configFile = Except.error msg →
      get_audio_feature_config env feature = Except.error (PyError.ioError msg)) ∧
    (∀ ps, env.configFile = Except.ok ps → jsonObjectToDict ps feature = none →
      get_audio_feature_config env feature = Except.error (PyError.keyError feature)) ∧
    ∀ e, get_audio_feature_config env feature = Except.error e →
      (a.calculate_predictions env feature).1 = Except.error e ∧
      (a.calculate_prediction_metric env feature category).1 = Except.error e := by
  refine ⟨⟨?_, ?_⟩, ?_, ?_, ?_⟩
  · rintro ⟨e, he⟩
    cases henv : env.configFile with
    | error msg => exact Or.inl ⟨msg, rfl⟩
    | ok ps =>
      cases hj : jsonObjectToDict ps feature with
      | none => exact Or.inr ⟨ps, rfl, hj⟩
      | some cfg =>
        simp only [get_audio_feature_config, henv, hj] at he
        exact Except.noConfusion he
  · rintro (⟨msg, hmsg⟩ | ⟨ps, hps, hj⟩)
    · exact ⟨PyError.ioError msg, by simp only [get_audio_feature_config, hmsg]⟩
    · exact ⟨PyError.keyError feature, by simp only [get_audio_feature_config, hps, hj]⟩
  · intro msg hmsg
    simp only [get_audio_feature_config, hmsg]
  · intro ps hps hj
    simp only [get_audio_feature_config, hps, hj]
  · intro e he
    refine ⟨?_, ?_⟩
    · simp only [AudioAnalyzer.calculate_predictions, he]
    · simp only [AudioAnalyzer.calculate_prediction_metric, he]

theorem config_lookup_failure_iff_witness :
    ((∃ e, get_audio_feature_config sampleEnv "unknown" = Except.error e) ↔
      (∃ msg, sampleEnv.configFile = Except.error msg) ∨
        ∃ ps, sampleEnv.configFile = Except.ok ps ∧ jsonObjectToDict ps "unknown" = none) ∧
    (∀ msg, sampleEnv.configFile = Except.error msg →
      get_audio_feature_config sampleEnv "unknown" = Except.error (PyError.ioError msg)) ∧
    (∀ ps, sampleEnv.configFile = Except.ok ps → jsonObjectToDict ps "unknown" = none →
      get_audio_feature_config sampleEnv "unknown" = Except.error (PyError.keyError "unknown")) ∧
    ∀ e, get_audio_feature_config sampleEnv "unknown" = Except.error e →
      (sampleAnalyzer.calculate_predictions sampleEnv "unknown").1 = Except.error e ∧
      (sampleAnalyzer.calculate_prediction_metric sampleEnv "unknown" 0).1 = Except.error e :=
  config_lookup_failure_iff sampleEnv sampleAnalyzer "unknown" 0

/-- C5 counterexample: under `badModelEnv` the feature `"flux"` is present in
the configuration and the file read succeeds, so the configuration lookup
succeeds; yet `calculate_predictions` and `calculate_prediction_metric` fail,
because the unrecognised model value `"vggish"` leaves `embedding_model`
unbound -- refuting the claimed "fails if and only if" for those methods. -/
theorem prediction_failure_without_lookup_failure :
    get_audio_feature_config badModelEnv "flux" =
      Except.ok ⟨"vggish", "regression", "emb.pb", "pred.pb"⟩ ∧
    ((AudioAnalyzer.init badModelEnv "f.mp3").1.calculate_predictions badModelEnv "flux").1 =
      Except.error (PyError.nameError "embedding_model") ∧
    ((AudioAnalyzer.init badModelEnv "f.mp3").1.calculate_prediction_metric
        badModelEnv "flux" 0).1 =
      Except.error (PyError.nameError "embedding_model") := by
  refine ⟨rfl, rfl, rfl⟩

/-- C7: no shared mutable state: every public operation returns the analyzer
unchanged (file path, model path and loaded audio included), and a second
`calculate_prediction_metric` call with the same feature and category on the
analyzer the first call returned yields the same result. -/
theorem operations_immutable_and_repeatable (env : Env) (a : AudioAnalyzer)
    (feature : String) (category : Int) :
    (a.get_metadata env).2.1 = a ∧
    (a.calculate_predictions env feature).2.1 = a ∧
    (a.calculate_prediction_metric env feature category).2.1 = a ∧
    (((a.calculate_prediction_metric env feature category).2.1).calculate_prediction_metric
        env feature category).1 =
      (a.calculate_prediction_metric env feature category).1 := by
  refine ⟨get_metadata_state a env, calculate_predictions_state a env feature,
    calculate_prediction_metric_state a env feature category, ?_⟩
  rw [calculate_prediction_metric_state a env feature category]

/-- C10: the audio is loaded exactly once, eagerly at construction, with
`sampleRate=16000, resampleQuality=4`; `file_path` returns the constructor
argument; and no `calculate_predictions` call reloads the file: its trace has
no `MonoLoader` invocation and it leaves the loaded audio unchanged. -/
theorem audio_loaded_once_at_construction (env : Env) (path feature : String)
    (a : AudioAnalyzer) :
    (AudioAnalyzer.init env path).1.file_path = path ∧
    (AudioAnalyzer.init env path).1.audio = env.monoLoad path 16000 4 ∧
    (AudioAnalyzer.init env path).2 = [Event.monoLoad path 16000 4] ∧
    (∀ e ∈ (a.calculate_predictions env feature).2.2, e.isMonoLoad = false) ∧
    (a.calculate_predictions env feature).2.1.audio = a.audio := by
  refine ⟨rfl, rfl, rfl, ?_, by rw [calculate_predictions_state]⟩
  simp only [AudioAnalyzer.calculate_predictions]
  repeat' split
  all_goals intro e he
  all_goals fin_cases he <;> rfl

theorem audio_loaded_once_at_construction_witness :
    (AudioAnalyzer.init sampleEnv "song.mp3").1.file_path = "song.mp3" ∧
    (AudioAnalyzer.init sampleEnv "song.mp3").1.audio = sampleEnv.monoLoad "song.mp3" 16000 4 ∧
    (AudioAnalyzer.init sampleEnv "song.mp3").2 = [Event.monoLoad "song.mp3" 16000 4] ∧
    (∀ e ∈ (sampleAnalyzer.calculate_predictions sampleEnv "danceability").2.2,
      e.isMonoLoad = false) ∧
    (sampleAnalyzer.calculate_predictions sampleEnv "danceability").2.1.audio =
      sampleAnalyzer.audio :=
  audio_loaded_once_at_construction sampleEnv "song.mp3" "danceability" sampleAnalyzer

theorem rectangular_cons (r : List ℚ) (rest : List (List ℚ)) (w : Nat)
    (h : Rectangular (r :: rest) w) : r.length = w ∧ Rectangular rest w :=
  ⟨h r (List.mem_cons_self r rest), fun row hrow => h row (List.mem_cons_of_mem r hrow)⟩

theorem foldr_addRow_length (P : List (List ℚ)) (w : Nat) (hrect : Rectangular P w) :
    (P.foldr addRow (List.replicate w 0)).length = w := by
  induction P with
  | nil => simp
  | cons r rest ih =>
    obtain ⟨hr, hrest⟩ := rectangular_cons r rest w hrect
    simp [addRow, hr, ih hrest]

theorem foldr_addRow_getD (P : List (List ℚ)) (w : Nat) (j : Nat)
    (hrect : Rectangular P w) (hj : j < w) :
    (P.foldr addRow (List.replicate w 0)).getD j 0 =
      (P.map (fun row => row.getD j 0)).sum := by
  induction P with
  | nil => simp [List.getD, List.getElem?_replicate, hj]
  | cons r rest ih =>
    obtain ⟨hr, hrest⟩ := rectangular_cons r rest w hrect
    have hlen : (rest.foldr addRow (List.replicate w 0)).length = w :=
      foldr_addRow_length rest w hrest
    have hzip : (addRow r (rest.foldr addRow (List.replicate w 0))).length = w := by
      simp [addRow, hr, hlen]
    rw [List.foldr_cons, List.getD_eq_getElem _ _ (by rw [hzip]; exact hj)]
    simp only [addRow]
    rw [List.getElem_zipWith]
    rw [List.map_cons, List.sum_cons, ← ih hrest]
    rw [List.getD_eq_getElem r 0 (by rw [hr]; exact hj),
      List.getD_eq_getElem _ 0 (by rw [hlen]; exact hj)]

theorem npMeanAxis0_length (P : List (List ℚ)) (w : Nat)
    (hrect : Rectangular P w) (hne : P ≠ []) :
    (npMeanAxis0 P).length = w := by
  cases P with
  | nil => exact absurd rfl hne
  | cons r rest =>
    obtain ⟨hr, hrest⟩ := rectangular_cons r rest w hrect
    have hw : npWidth (r :: rest) = w := hr
    simp only [npMeanAxis0, npSumAxis0, List.length_map, hw]
    exact foldr_addRow_length (r :: rest) w hrect

theorem npMeanAxis0_getD (P : List (List ℚ)) (w : Nat) (j : Nat)
    (hrect : Rectangular P w) (hne : P ≠ []) (hj : j < w) :
    (npMeanAxis0 P).getD j 0 =
      (P.map (fun row => row.getD j 0)).sum / (P.length : ℚ) := by
  cases P with
  | nil => exact absurd rfl hne
  | cons r rest =>
    obtain ⟨hr, hrest⟩ := rectangular_cons r rest w hrect
    have hw : npWidth (r :: rest) = w := hr
    have hslen : (npSumAxis0 (r :: rest)).length = w := by
      simp only [npSumAxis0, hw]; exact foldr_addRow_length (r :: rest) w hrect
    have hjs : j < (npSumAxis0 (r :: rest)).length := by rw [hslen]; exact hj
    simp only [npMeanAxis0]
    rw [List.getD_eq_getElem _ _ (by simpa using hjs), List.getElem_map,
      ← List.getD_eq_getElem _ 0 hjs]
    simp only [npSumAxis0, hw]
    rw [foldr_addRow_getD (r :: rest) w j hrect hj]

theorem metric_regression_eq (env : Env) (a : AudioAnalyzer) (feature : String)
    (cfg : ConfigEntry) (P : List (List ℚ)) (category : Int)
    (hcfg : get_audio_feature_config env feature = Except.ok cfg)
    (halg : cfg.algorithm = "regression")
    (hP : (a.calculate_predictions env feature).1 = Except.ok P) :
    (a.calculate_prediction_metric env feature category).1 =
      Except.ok (Metric.tup (npMeanAxis0 P)) := by
  rcases hcp : a.calculate_predictions env feature with ⟨res, a2, tr⟩
  rw [hcp] at hP
  have hres : res = Except.ok P := hP
  subst hres
  simp [AudioAnalyzer.calculate_prediction_metric, hcfg, hcp, halg]

theorem metric_classifier_eq (env : Env) (a : AudioAnalyzer) (feature : String)
    (cfg : ConfigEntry) (P : List (List ℚ)) (w : Nat) (category : Int)
    (hcfg : get_audio_feature_config env feature = Except.ok cfg)
    (halg : cfg.algorithm = "classifier")
    (hP : (a.calculate_predictions env feature).1 = Except.ok P)
    (hrect : Rectangular P w) (hne : P ≠ [])
    (hc0 : 0 ≤ category) (hcw : category < (w : Int)) :
    (a.calculate_prediction_metric env feature category).1 =
      Except.ok (Metric.ratio
        ((P.countP (fun row => decide ((1 : ℚ)/2 < row.getD category.toNat 0)) : ℚ) /
          (P.length : ℚ))) := by
  rcases hcp : a.calculate_predictions env feature with ⟨res, a2, tr⟩
  rw [hcp] at hP
  have hres : res = Except.ok P := hP
  subst hres
  have hw : npWidth P = w := by
    cases P with
    | nil => exact absurd rfl hne
    | cons r rest => exact hrect r (List.mem_cons_self r rest)
  have hidx : npIndex (npWidth P) category = Except.ok category.toNat := by
    rw [hw]; unfold npIndex; rw [if_pos ⟨hc0, hcw⟩]
  simp [AudioAnalyzer.calculate_prediction_metric, hcfg, hcp, halg, hidx, npColumn,
    List.countP_map]
  rfl

/-- C1: for a feature configured with algorithm `"classifier"` and a category
index in bounds of the prediction columns, `calculate_prediction_metric`
returns the number of per-segment predictions whose entry in that column
strictly exceeds `0.5`, divided by the total number of segments. -/
theorem classifier_metric_is_threshold_ratio (env : Env) (a : AudioAnalyzer)
    (feature : String) (cfg : ConfigEntry) (P : List (List ℚ)) (w : Nat) (category : Int)
    (hcfg : get_audio_feature_config env feature = Except.ok cfg)
    (halg : cfg.algorithm = "classifier")
    (hP : (a.calculate_predictions env feature).1 = Except.ok P)
    (hrect : Rectangular P w) (hne : P ≠ [])
    (hc0 : 0 ≤ category) (hcw : category < (w : Int)) :
    (a.calculate_prediction_metric env feature category).1 =
      Except.ok (Metric.ratio
        ((P.countP (fun row => decide ((1 : ℚ)/2 < row.getD category.toNat 0)) : ℚ) /
          (P.length : ℚ))) :=
  metric_classifier_eq env a feature cfg P w category hcfg halg hP hrect hne hc0 hcw

theorem classifier_metric_is_threshold_ratio_witness :
    (sampleAnalyzer.calculate_prediction_metric sampleEnv "danceability" 0).1 =
      Except.ok (Metric.ratio (1/2)) := by
  have h := classifier_metric_is_threshold_ratio sampleEnv sampleAnalyzer "danceability"
    ⟨"effnet", "classifier", "emb.pb", "pred.pb"⟩ [[3/4, 1/4], [1/4, 3/4]] 2 0
    rfl rfl rfl (by decide) (by decide) (by decide) (by decide)
  rw [h]
  norm_num [List.countP, List.countP.go]

/-- C2: for a feature configured with algorithm `"regression"`,
`calculate_prediction_metric` returns a tuple with one element per prediction
column, whose entry at each column is the arithmetic mean of that column over
the segments. -/
theorem regression_metric_is_columnwise_mean (env : Env) (a : AudioAnalyzer)
    (feature : String) (cfg : ConfigEntry) (P : List (List ℚ)) (w : Nat) (category : Int)
    (hcfg : get_audio_feature_config env feature = Except.ok cfg)
    (halg : cfg.algorithm = "regression")
    (hP : (a.calculate_predictions env feature).1 = Except.ok P)
    (hrect : Rectangular P w) (hne : P ≠ []) :
    ∃ m : List ℚ, (a.calculate_prediction_metric env feature category).1 =
        Except.ok (Metric.tup m) ∧
      m.length = w ∧
      ∀ j, j < w → m.getD j 0 = (P.map (fun row => row.getD j 0)).sum / (P.length : ℚ) :=
  ⟨npMeanAxis0 P, metric_regression_eq env a feature cfg P category hcfg halg hP,
    npMeanAxis0_length P w hrect hne,
    fun j hj => npMeanAxis0_getD P w j hrect hne hj⟩

theorem regression_metric_is_columnwise_mean_witness :
    ∃ m : List ℚ, (sampleAnalyzer.calculate_prediction_metric sampleEnv "approachability" 0).1 =
        Except.ok (Metric.tup m) ∧
      m.length = 2 ∧
      ∀ j, j < 2 → m.getD j 0 =
        (([[(3 : ℚ)/4, 1/4], [1/4, 3/4]].map (fun row => row.getD j 0)).sum /
          (([[(3 : ℚ)/4, 1/4], [1/4, 3/4]] : List (List ℚ)).length : ℚ)) :=
  regression_metric_is_columnwise_mean sampleEnv sampleAnalyzer "approachability"
    ⟨"effnet", "regression", "emb.pb", "pred2.pb"⟩ [[3/4, 1/4], [1/4, 3/4]] 2 0
    rfl rfl rfl (by decide) (by decide)

/-- C8: for nonempty predictions (nonemptiness being the precondition that
keeps the unguarded division by the segment count well-defined) and an
in-bounds category, the classifier ratio lies in the closed interval `[0, 1]`. -/
theorem classifier_ratio_in_unit_interval (env : Env) (a : AudioAnalyzer)
    (feature : String) (cfg : ConfigEntry) (P : List (List ℚ)) (w : Nat) (category : Int)
    (hcfg : get_audio_feature_config env feature = Except.ok cfg)
    (halg : cfg.algorithm = "classifier")
    (hP : (a.calculate_predictions env feature).1 = Except.ok P)
    (hrect : Rectangular P w) (hne : P ≠ [])
    (hc0 : 0 ≤ category) (hcw : category < (w : Int)) :
    ∃ r : ℚ, (a.calculate_prediction_metric env feature category).1 =
        Except.ok (Metric.ratio r) ∧ 0 ≤ r ∧ r ≤ 1 := by
  have hlen : 0 < (P.length : ℚ) := by
    exact_mod_cast List.length_pos.mpr hne
  refine ⟨_, metric_classifier_eq env a feature cfg P w category hcfg halg hP hrect hne hc0 hcw,
    div_nonneg (Nat.cast_nonneg _) (Nat.cast_nonneg _), ?_⟩
  rw [div_le_one hlen]
  exact_mod_cast List.countP_le_length _

theorem classifier_ratio_in_unit_interval_witness :
    ∃ r : ℚ, (sampleAnalyzer.calculate_prediction_metric sampleEnv "danceability" 1).1 =
        Except.ok (Metric.ratio r) ∧ 0 ≤ r ∧ r ≤ 1 :=
  classifier_ratio_in_unit_interval sampleEnv sampleAnalyzer "danceability"
    ⟨"effnet", "classifier", "emb.pb", "pred.pb"⟩ [[3/4, 1/4], [1/4, 3/4]] 2 1
    rfl rfl rfl (by decide) (by decide) (by decide) (by decide)

theorem calculate_predictions_ok_algorithm (a : AudioAnalyzer) (env : Env)
    (feature : String) (P : List (List ℚ)) (cfg : ConfigEntry)
    (hcfg : get_audio_feature_config env feature = Except.ok cfg)
    (hP : (a.calculate_predictions env feature).1 = Except.ok P) :
    cfg.algorithm = "regression" ∨ cfg.algorithm = "classifier" := by
  simp only [AudioAnalyzer.calculate_predictions, hcfg] at hP
  cases hes : embeddingSelect a.model_path cfg with
  | none => simp [hes] at hP
  | some t =>
    obtain ⟨kind, egraph, eout⟩ := t
    cases hps : predictionSelect a.model_path cfg with
    | none => simp [hes, hps] at hP
    | some u =>
      unfold predictionSelect at hps
      split_ifs at hps with h1 h2
      · exact Or.inl h1
      · exact Or.inr h2

/-- C3: whenever `calculate_prediction_metric` returns a value for a
requested feature, that value is a tuple exactly when the configured
algorithm is `"regression"` and a float ratio exactly when it is
`"classifier"`; no other kind of value is ever returned. -/
theorem metric_result_is_tuple_or_ratio (env : Env) (a : AudioAnalyzer)
    (feature : String) (category : Int) (m : Metric)
    (h : (a.calculate_prediction_metric env feature category).1 = Except.ok m) :
    ∃ cfg, get_audio_feature_config env feature = Except.ok cfg ∧
      ((cfg.algorithm = "regression" ∧ ∃ vs, m = Metric.tup vs) ∨
        (cfg.algorithm = "classifier" ∧ ∃ r, m = Metric.ratio r)) := by
  cases hcfg : get_audio_feature_config env feature with
  | error e => simp [AudioAnalyzer.calculate_prediction_metric, hcfg] at h
  | ok cfg =>
    refine ⟨cfg, rfl, ?_⟩
    rcases hcp : a.calculate_predictions env feature with ⟨res, a2, tr⟩
    cases res with
    | error e => simp [AudioAnalyzer.calculate_prediction_metric, hcfg, hcp] at h
    | ok P =>
      have halg := calculate_predictions_ok_algorithm a env feature P cfg hcfg
        (by rw [hcp])
      simp only [AudioAnalyzer.calculate_prediction_metric, hcfg, hcp] at h
      by_cases h1 : cfg.algorithm = "regression"
      · rw [if_pos h1] at h
        simp only at h
        exact Or.inl ⟨h1, npMeanAxis0 P, (Except.ok.inj h).symm⟩
      · rw [if_neg h1] at h
        rcases halg with halg | halg
        · exact absurd halg h1
        rw [if_pos halg] at h
        cases hidx : npIndex (npWidth P) category with
        | error e => rw [hidx] at h; simp at h
        | ok j =>
          rw [hidx] at h
          simp only at h
          exact Or.inr ⟨halg, _, (Except.ok.inj h).symm⟩

theorem metric_result_is_tuple_or_ratio_witness :
    ∃ cfg, get_audio_feature_config sampleEnv "danceability" = Except.ok cfg ∧
      ((cfg.algorithm = "regression" ∧ ∃ vs, Metric.ratio (1/2) = Metric.tup vs) ∨
        (cfg.algorithm = "classifier" ∧ ∃ r, Metric.ratio (1/2) = Metric.ratio r)) :=
  metric_result_is_tuple_or_ratio sampleEnv sampleAnalyzer "danceability" 0
    (Metric.ratio (1/2))
    (by
      rw [metric_classifier_eq sampleEnv sampleAnalyzer "danceability"
        ⟨"effnet", "classifier", "emb.pb", "pred.pb"⟩ [[3/4, 1/4], [1/4, 3/4]] 2 0
        rfl rfl rfl (by decide) (by decide) (by decide) (by decide)]
      norm_num [List.countP, List.countP.go])

/-- C6: `calculate_predictions` selects the embedding predictor by the
configuration's model field (`"musicnn"` the MusiCNN predictor with output
node `model/dense/BiasAdd`, `"effnet"` the EffnetDiscogs predictor with
output node `PartitionedCall:1`, each loaded from the configured embedding
graph filename under the model path) and selects the prediction model's
output node by the algorithm field (`"regression"` the identity output,
`"classifier"` the softmax output, loaded from the configured prediction
graph filename). -/
theorem predictions_model_dispatch (env : Env) (a : AudioAnalyzer) (feature : String)
    (cfg : ConfigEntry)
    (hcfg : get_audio_feature_config env feature = Except.ok cfg) :
    (cfg.model = "musicnn" → cfg.algorithm = "regression" →
      a.calculate_predictions env feature =
        (Except.ok (env.runPrediction (a.model_path ++ cfg.prediction_graph_filename)
            "model/Identity"
            (env.runEmbedding "musicnn" (a.model_path ++ cfg.embedding_graph_filename)
              "model/dense/BiasAdd" a.audio)), a,
          [Event.openConfig configPath,
            Event.runEmbedding "musicnn" (a.model_path ++ cfg.embedding_graph_filename)
              "model/dense/BiasAdd",
            Event.runPrediction (a.model_path ++ cfg.prediction_graph_filename)
              "model/Identity"])) ∧
    (cfg.model = "musicnn" → cfg.algorithm = "classifier" →
      a.calculate_predictions env feature =
        (Except.ok (env.runPrediction (a.model_path ++ cfg.prediction_graph_filename)
            "model/Softmax"
            (env.runEmbedding "musicnn" (a.model_path ++ cfg.embedding_graph_filename)
              "model/dense/BiasAdd" a.audio)), a,
          [Event.openConfig configPath,
            Event.runEmbedding "musicnn" (a.model_path ++ cfg.embedding_graph_filename)
              "model/dense/BiasAdd",
            Event.runPrediction (a.model_path ++ cfg.prediction_graph_filename)
              "model/Softmax"])) ∧
    (cfg.model = "effnet" → cfg.algorithm = "regression" →
      a.calculate_predictions env feature =
        (Except.ok (env.runPrediction (a.model_path ++ cfg.prediction_graph_filename)
            "model/Identity"
            (env.runEmbedding "effnet" (a.model_path ++ cfg.embedding_graph_filename)
              "PartitionedCall:1" a.audio)), a,
          [Event.openConfig configPath,
            Event.runEmbedding "effnet" (a.model_path ++ cfg.embedding_graph_filename)
              "PartitionedCall:1",
            Event.runPrediction (a.model_path ++ cfg.prediction_graph_filename)
              "model/Identity"])) ∧
    (cfg.model = "effnet" → cfg.algorithm = "classifier" →
      a.calculate_predictions env feature =
        (Except.ok (env.runPrediction (a.model_path ++ cfg.prediction_graph_filename)
            "model/Softmax"
            (env.runEmbedding "effnet" (a.model_path ++ cfg.embedding_graph_filename)
              "PartitionedCall:1" a.audio)), a,
          [Event.openConfig configPath,
            Event.runEmbedding "effnet" (a.model_path ++ cfg.embedding_graph_filename)
              "PartitionedCall:1",
            Event.runPrediction (a.model_path ++ cfg.prediction_graph_filename)
              "model/Softmax"])) := by
  refine ⟨?_, ?_, ?_, ?_⟩ <;> intro hm ha <;>
    simp [AudioAnalyzer.calculate_predictions, hcfg, embeddingSelect, predictionSelect, hm, ha]

theorem predictions_model_dispatch_witness :
    sampleAnalyzer.calculate_predictions sampleEnv "danceability" =
      (Except.ok (sampleEnv.runPrediction ("./models/" ++ "pred.pb") "model/Softmax"
          (sampleEnv.runEmbedding "effnet" ("./models/" ++ "emb.pb") "PartitionedCall:1"
            sampleAnalyzer.audio)), sampleAnalyzer,
        [Event.openConfig configPath,
          Event.runEmbedding "effnet" ("./models/" ++ "emb.pb") "PartitionedCall:1",
          Event.runPrediction ("./models/" ++ "pred.pb") "model/Softmax"]) :=
  (predictions_model_dispatch sampleEnv sampleAnalyzer "danceability"
    ⟨"effnet", "classifier", "emb.pb", "pred.pb"⟩ rfl).2.2.2 rfl rfl

theorem poolToMetadata_spec (pool : List (String × List String))
    (acc : String → Option String)
    (hne : ∀ p ∈ pool, p.2 ≠ []) :
    ∃ m, poolToMetadata pool acc = Except.ok m ∧
      ∀ k, m k = (pool.reverse.find? (fun p => lastComponent p.1 == k)).elim (acc k)
        (fun p => p.2.head?) := by
  induction pool generalizing acc with
  | nil => exact ⟨acc, rfl, fun k => by simp⟩
  | cons p rest ih =>
    obtain ⟨d, values⟩ := p
    cases values with
    | nil => exact absurd rfl (hne (d, []) (List.mem_cons_self _ _))
    | cons v vs =>
      obtain ⟨m, hm, hmk⟩ := ih (fun k => if k = lastComponent d then some v else acc k)
        (fun q hq => hne q (List.mem_cons_of_mem _ hq))
      refine ⟨m, hm, fun k => ?_⟩
      rw [hmk k, List.reverse_cons, List.find?_append]
      cases hfind : rest.reverse.find? (fun p => lastComponent p.1 == k) with
      | some q => simp [hfind]
      | none =>
        by_cases hk : lastComponent d = k
        · simp [hfind, List.find?, hk]
        · simp [hfind, List.find?, beq_eq_false_iff_ne.mpr hk]
          exact fun h => absurd h.symm hk

/-- C9: `get_metadata` keys each value by only the last dot-separated
component of the descriptor name and keeps the first element of each
descriptor's value list: the returned dict holds, at every key, the first
value of the last descriptor in iteration order whose final component equals
that key, so a later descriptor overwrites an earlier one sharing the final
component. -/
theorem metadata_keyed_by_last_component (env : Env) (a : AudioAnalyzer)
    (hne : ∀ p ∈ env.metadataPool a.file_path, p.2 ≠ []) :
    ∃ m, (a.get_metadata env).1 = Except.ok m ∧
      ∀ k, m k = ((env.metadataPool a.file_path).reverse.find?
          (fun p => lastComponent p.1 == k)).bind (fun p => p.2.head?) := by
  obtain ⟨m, hm, hmk⟩ :=
    poolToMetadata_spec (env.metadataPool a.file_path) (fun _ => none) hne
  refine ⟨m, hm, fun k => ?_⟩
  rw [hmk k]
  cases (env.metadataPool a.file_path).reverse.find? (fun p => lastComponent p.1 == k) with
  | none => rfl
  | some q => rfl

theorem metadata_keyed_by_last_component_witness :
    (∀ p ∈ sampleEnv.metadataPool sampleAnalyzer.file_path, p.2 ≠ []) ∧
    ∃ m, (sampleAnalyzer.get_metadata sampleEnv).1 = Except.ok m ∧
      ∀ k, m k = ((sampleEnv.metadataPool sampleAnalyzer.file_path).reverse.find?
          (fun p => lastComponent p.1 == k)).bind (fun p => p.2.head?) :=
  ⟨by decide, metadata_keyed_by_last_component sampleEnv sampleAnalyzer (by decide)⟩
